import Mathlib

/-!
# Weaves connection-management subsystem: a shallow embedding

This file embeds the connection-management core of the Weaves browser
extension (files `background.js`, `storage-manager.js`, and the content
script) as executable Lean definitions, and proves or refutes the claims
of the specification against them.

Modelling conventions:
* JS numbers holding timestamps are `Int`; connection strengths are `ℚ`
  (all comparisons performed by the code on strengths are order
  comparisons, which the rationals model faithfully).
* A JS `Map` is an association list in insertion order with unique keys;
  `Map.set`, `Map.get`, `Map.delete` are `jsMapSet`, `jsMapGet`, and a
  key filter respectively.
* JS `Array.prototype.sort` is stable and its comparators here are all
  consistent, so it is modelled by `List.mergeSort` with
  `le a b := cmp a b ≤ 0`.
* The external analysis capability (`LanguageModel` session) is an
  opaque oracle: its possible outputs are parameters of the functions
  that consume them.
-/

/-- Per-character lower-casing, modelling `String.prototype.toLowerCase`
(the code only ever feeds it ASCII phrases to search for). -/
def jsToLower (s : String) : String :=
  String.mk (s.data.map Char.toLower)

/-- Character-list prefix test (auxiliary for `jsIncludes`). -/
def jsLeadsChars : List Char → List Char → Bool
  | [], _ => true
  | _ :: _, [] => false
  | n :: ns, h :: hs => n == h && jsLeadsChars ns hs

/-- Does `needle` occur contiguously in the character list? -/
def jsIncludesChars (needle : List Char) : List Char → Bool
  | [] => jsLeadsChars needle []
  | c :: cs => jsLeadsChars needle (c :: cs) || jsIncludesChars needle cs

/-- `haystack.includes(needle)` on JS strings: substring containment. -/
def jsIncludes (haystack needle : String) : Bool :=
  jsIncludesChars needle.data haystack.data

/-- `s.substring(0, n)` on JS strings. -/
def jsSubstring (s : String) (n : Nat) : String :=
  String.mk (s.data.take n)

/-- Worker for `jsSplitWs`. The second argument is `some cur` while a
(possibly empty) token `cur` (reversed) is being accumulated, and `none`
while inside a run of whitespace that has already closed a token. -/
def jsSplitWsGo : List Char → Option (List Char) → List (List Char)
  | [], some cur => [cur.reverse]
  | [], none => [[]]
  | c :: cs, some cur =>
    if c.isWhitespace then cur.reverse :: jsSplitWsGo cs none
    else jsSplitWsGo cs (some (c :: cur))
  | c :: cs, none =>
    if c.isWhitespace then jsSplitWsGo cs none
    else jsSplitWsGo cs (some [c])

/-- `s.split(/\s+/)` on JS strings: splits on maximal whitespace runs,
producing a leading (resp. trailing) empty piece when the string starts
(resp. ends) with whitespace, and `[""]` on the empty string. -/
def jsSplitWs (s : String) : List String :=
  (jsSplitWsGo s.data (some [])).map String.mk

/-- `Map.prototype.set k v`: update in place if the key is present,
otherwise append at the end (JS `Map`s preserve insertion order). -/
def jsMapSet {β : Type} (m : List (String × β)) (k : String) (v : β) :
    List (String × β) :=
  if m.any (fun e => e.1 = k) then
    m.map (fun e => if e.1 = k then (k, v) else e)
  else m ++ [(k, v)]

/-- `Map.prototype.get k` : first entry with the given key, if any. -/
def jsMapGet {β : Type} (m : List (String × β)) (k : String) : Option β :=
  (m.find? (fun e => e.1 = k)).map Prod.snd

/-- JS `x || fallback` for strings: the empty string is falsy. -/
def jsOrElse (s fallback : String) : String :=
  if s = "" then fallback else s

/-! ## Data model -/

/-- `DEFAULT_SETTINGS` of the storage manager in `background.js`
(the fields the connection core reads). -/
structure Settings where
  autoResetEnabled : Bool
  maxDailyContent : Nat
  maxPinnedConnections : Nat
  dataRetentionDays : Nat
  deriving Repr, DecidableEq

def DEFAULT_SETTINGS : Settings :=
  { autoResetEnabled := true
    maxDailyContent := 100
    maxPinnedConnections := 50
    dataRetentionDays := 7 }

/-- The analysis record attached to a content item
(shape returned by `WeavesAI.analyzeContent`). -/
structure Analysis where
  coreMessage : String
  perspective : String
  themes : List String
  emotionalContext : String
  problems : List String
  solutions : List String
  assumptions : List String
  implications : List String
  contentNature : String
  summary : String
  deriving Repr, DecidableEq

/-- A content item as built in the `CONTENT_UPDATE` branch of the
message listener in `background.js`. -/
structure ContentItem where
  id : String
  tabId : Int
  url : String
  title : String
  content : String
  domain : String
  platform : String
  contentType : String
  timestamp : Int
  analysis : Analysis
  deriving Repr, DecidableEq

/-- A connection record as pushed onto `weavesAI.connections`.
The JS fields `from` and `to` are `fromId` and `toId` here (`from` is a
reserved word in Lean); `pinned` models the advisory flag the second
`PIN_CONNECTION` handler sets on the stored record (absent, i.e. falsy,
on freshly-pushed connections). -/
structure Connection where
  fromId : String
  toId : String
  fromTitle : String
  toTitle : String
  fromUrl : String
  toUrl : String
  strength : ℚ
  reason : String
  type : String
  relationship : String
  timestamp : Int
  platforms : String
  pinned : Bool
  deriving Repr, DecidableEq

/-- A pinned-ledger entry: the pinned copy of a connection plus the pin
stamp (`pinnedAt`, `pinnedDate`), as stored by
`WeavesStorageManager.pinConnection` in `background.js`. -/
structure PinnedConnection where
  conn : Connection
  pinnedAt : Int
  pinnedDate : String
  deriving Repr, DecidableEq

/-- An element of the merged all-connections view: the spread of a
connection together with the recomputed composite `id` and the
authoritative `pinned` flag (`{...c, id, pinned}` in the source). -/
structure ViewConn where
  conn : Connection
  id : String
  pinned : Bool
  deriving Repr, DecidableEq

/-- One parsed `CONNECT: index | strength | reason` line of the analysis
capability's response (string-to-number parsing of the opaque model
output is outside the embedding boundary). -/
structure Candidate where
  index : Int
  strength : ℚ
  reason : String
  deriving Repr, DecidableEq

/-- A candidate accepted by `WeavesAI.findConnections`. -/
structure AcceptedConn where
  contentId : String
  strength : ℚ
  reason : String
  type : String
  relationship : String
  deriving Repr, DecidableEq

/-- The in-memory state of the background worker: the `WeavesAI`
instance together with its storage manager's pinned ledger and
settings. -/
structure AIState where
  isInitialized : Bool
  contentStore : List (String × ContentItem)
  connections : List Connection
  pinned : List (String × PinnedConnection)
  settings : Settings
  deriving Repr, DecidableEq

/-- The persisted daily data blob (`weavesData`). -/
structure DailyData where
  contentStore : List (String × ContentItem)
  connections : List Connection
  timestamp : Int
  deriving Repr, DecidableEq

/-- The persistent-storage state the storage manager's daily-reset logic
reads and writes. -/
structure StorageState where
  dailyData : Option DailyData
  lastResetDate : Option String
  pinned : List (String × PinnedConnection)
  settings : Settings
  deriving Repr, DecidableEq

/-- Payload of a `CONTENT_UPDATE` message. -/
structure ContentMsg where
  title : String
  content : String
  url : String
  domain : String
  platform : String
  contentType : String
  deriving Repr, DecidableEq

/-- A `{success}` response. -/
structure SimpleResponse where
  success : Bool
  deriving Repr, DecidableEq

/-- The `{success, connections, highQuality}` response to
`CONTENT_UPDATE`. -/
structure ContentResponse where
  success : Bool
  connections : Nat
  highQuality : Nat
  deriving Repr, DecidableEq

/-! ## Storage manager (the copy in `background.js`, the one the worker
instantiates; `storage-manager.js` ships a second, divergent copy whose
differing functions are embedded under the `SMgr` namespace below) -/

/-- `generateConnectionId`: the composite id
`connection.from + '-' + connection.to + '-' + connection.timestamp`. -/
def generateConnectionId (connection : Connection) : String :=
  connection.fromId ++ "-" ++ connection.toId ++ "-" ++ toString connection.timestamp

/-- `getPinnedConnections`: the ledger's values, each spread with a
freshly recomputed composite id and `pinned: true`. -/
def getPinnedConnections (pinnedConnections : List (String × PinnedConnection)) :
    List ViewConn :=
  pinnedConnections.map fun e =>
    { conn := e.2.conn, id := generateConnectionId e.2.conn, pinned := true }

/-- `WeavesStorageManager.pinConnection (background.js)`: throws (hence
returns `false` through the `catch`) when the ledger size has reached
`maxPinnedConnections`, otherwise stores the pin stamped with the
current time and date and returns `true`. -/
def pinConnection (settings : Settings)
    (pinnedConnections : List (String × PinnedConnection))
    (connectionId : String) (connection : Connection) (now : Int) (today : String) :
    Bool × List (String × PinnedConnection) :=
  if settings.maxPinnedConnections ≤ pinnedConnections.length then
    (false, pinnedConnections)
  else
    (true, jsMapSet pinnedConnections connectionId
      { conn := { connection with pinned := true }, pinnedAt := now, pinnedDate := today })

/-- `WeavesStorageManager.unpinConnection`: `Map.delete`, returning
whether an entry was removed. -/
def unpinConnection (pinnedConnections : List (String × PinnedConnection))
    (connectionId : String) : Bool × List (String × PinnedConnection) :=
  (pinnedConnections.any (fun e => e.1 = connectionId),
   pinnedConnections.filter (fun e => e.1 ≠ connectionId))

/-- `WeavesStorageManager.cleanupPinnedConnections (background.js)`:
when the ledger is strictly over capacity, sort the entries by
`pinnedAt` ascending and delete the first `size - max` of them from the
map; otherwise do nothing. There is no retention-age check in this
version. -/
def cleanupPinnedConnections (maxPinnedConnections : Nat)
    (pinnedConnections : List (String × PinnedConnection)) :
    List (String × PinnedConnection) :=
  if maxPinnedConnections < pinnedConnections.length then
    let sortedPins := pinnedConnections.mergeSort
      (fun a b => decide (a.2.pinnedAt ≤ b.2.pinnedAt))
    let toRemove := sortedPins.take (sortedPins.length - maxPinnedConnections)
    pinnedConnections.filter (fun e => !(toRemove.any (fun r => r.1 = e.1)))
  else pinnedConnections

/-- `performDailyReset (background.js)`: null out the daily data, record
the reset date, and run the (capacity-only) ledger cleanup. -/
def performDailyReset (dateString : String) (st : StorageState) : StorageState :=
  { st with
    dailyData := none
    lastResetDate := some dateString
    pinned := cleanupPinnedConnections st.settings.maxPinnedConnections st.pinned }

/-- `checkAndPerformDailyReset (background.js)`: no-op unless auto reset
is enabled and the stored last-reset date differs from today. -/
def checkAndPerformDailyReset (today : String) (st : StorageState) : StorageState :=
  if !st.settings.autoResetEnabled then st
  else if st.lastResetDate ≠ some today then performDailyReset today st
  else st

namespace SMgr

/-- `WeavesStorageManager.cleanupPinnedConnections (storage-manager.js)`:
delete every entry whose `pinnedAt` lies before
`now - retentionDays * 24*60*60*1000`. There is no capacity eviction in
this version. -/
def cleanupPinnedConnections (retentionDays : Nat) (now : Int)
    (pinnedConnections : List (String × PinnedConnection)) :
    List (String × PinnedConnection) :=
  let cutoffTime := now - (retentionDays : Int) * 86400000
  pinnedConnections.filter (fun e => !decide (e.2.pinnedAt < cutoffTime))

end SMgr

/-! ## The merged all-connections view -/

/-- The JS sort comparator of `getAllConnections` as a `≤`-test:
`cmp a b ≤ 0` for
`cmp = (pinned first, then strength descending, then timestamp
descending)`. -/
def connCmpLe (a b : ViewConn) : Bool :=
  if a.pinned && !b.pinned then true
  else if !a.pinned && b.pinned then false
  else if a.conn.strength != b.conn.strength then
    decide (b.conn.strength ≤ a.conn.strength)
  else decide (b.conn.timestamp ≤ a.conn.timestamp)

/-- `WeavesAI.getAllConnections`: regular connections are spread with
their recomputed id and `pinned: false`; the result starts from all
pinned views, appends each regular view whose id no pinned view carries,
and sorts with the comparator above (JS `sort` is stable and the
comparator is consistent, so stable `mergeSort` models it exactly). -/
def getAllConnections (pinnedConnections : List (String × PinnedConnection))
    (connections : List Connection) : List ViewConn :=
  let regularConnections := connections.map fun c =>
    { conn := c, id := generateConnectionId c, pinned := false : ViewConn }
  let pinnedViews := getPinnedConnections pinnedConnections
  let allConnections := pinnedViews ++
    regularConnections.filter (fun r => !(pinnedViews.any (fun p => p.id = r.id)))
  allConnections.mergeSort connCmpLe

/-- The `GET_CONNECTIONS` branch of the message listener: recent content
(newest first, at most 25) and the merged view truncated to 50. -/
def handleGetConnections (st : AIState) : List ContentItem × List ViewConn :=
  (((st.contentStore.map Prod.snd).mergeSort
      (fun a b => decide (b.timestamp ≤ a.timestamp))).take 25,
   (getAllConnections st.pinned st.connections).take 50)

/-! ## Analysis and connection finding (`WeavesAI`) -/

/-- The record `analyzeContent` returns when `isInitialized` is false
(no session: the static placeholder analysis, not the heuristic
`minimalFallbackAnalysis`). -/
def fallbackUninitAnalysis (content : String) : Analysis :=
  { coreMessage := "Content requires AI analysis"
    perspective := "unknown"
    themes := []
    emotionalContext := "neutral"
    problems := []
    solutions := []
    assumptions := []
    implications := []
    contentNature := "unanalyzed"
    summary := jsSubstring content 300 ++ "..." }

/-- `WeavesAI.analyzeContent`: the uninitialized branch is deterministic;
the initialized branch depends on the opaque session and is supplied as
the `oracle` parameter. -/
def analyzeContent (isInitialized : Bool) (oracle : Analysis) (content : String) :
    Analysis :=
  if !isInitialized then fallbackUninitAnalysis content else oracle

/-- The validation applied to each parsed `CONNECT:` line of the model
response (`WeavesAI.findConnections`): index in range of the compared
set, strength in `[0.7, 1.0]`, reason longer than 50 characters, and
none of the three shallow-connection phrases in the lower-cased
reason. -/
def validCandidate (existingAnalyses : List ContentItem) (c : Candidate) : Bool :=
  decide (0 ≤ c.index) && decide (c.index < (existingAnalyses.length : Int)) &&
  decide (mkRat 7 10 ≤ c.strength) && decide (c.strength ≤ mkRat 1 1) &&  -- 0.7, 1.0
  decide (50 < c.reason.length) &&
  !(jsIncludes (jsToLower c.reason) "both mention") &&
  !(jsIncludes (jsToLower c.reason) "both discuss") &&
  !(jsIncludes (jsToLower c.reason) "both are about")

/-- The parsing loop of `findConnections`: each valid line pushes an
accepted connection whose `contentId` is the id of the indexed compared
item; invalid lines are skipped. No count cap is applied. -/
def parseCandidates (existingAnalyses : List ContentItem) :
    List Candidate → List AcceptedConn
  | [] => []
  | c :: rest =>
    if validCandidate existingAnalyses c then
      { contentId := ((existingAnalyses.get? c.index.toNat).map (·.id)).getD ""
        strength := c.strength
        reason := c.reason
        type := "academic-insight"
        relationship := "provides-framework" } :: parseCandidates existingAnalyses rest
    else parseCandidates existingAnalyses rest

/-- `WeavesAI.findConnections`: empty when the capability is
uninitialized; otherwise the compared set is `existingContents.slice(0,4)`
and the parsed model response (`candidates`) is filtered by
`validCandidate`. -/
def findConnections (isInitialized : Bool) (existingContents : List ContentItem)
    (candidates : List Candidate) : List AcceptedConn :=
  if !isInitialized then []
  else parseCandidates (existingContents.take 4) candidates

/-! ## Message handlers (`chrome.runtime.onMessage` listener) -/

/-- The content item assembled at the top of the `CONTENT_UPDATE`
branch. -/
def mkContentItem (msg : ContentMsg) (senderTabId now : Int) (analysis : Analysis) :
    ContentItem :=
  { id := toString senderTabId ++ "-" ++ toString now
    tabId := senderTabId
    url := msg.url
    title := msg.title
    content := msg.content
    domain := msg.domain
    platform := msg.platform
    contentType := msg.contentType
    timestamp := now
    analysis := analysis }

/-- The connection record pushed for one accepted candidate: target
title/url resolved from the content store, `'Unknown'` (resp. `''`)
when absent, `pinned` not set (falsy). -/
def mkConnection (item : ContentItem) (store : List (String × ContentItem))
    (c : AcceptedConn) (now : Int) : Connection :=
  let targetContent := jsMapGet store c.contentId
  { fromId := item.id
    toId := c.contentId
    fromTitle := item.title
    toTitle := jsOrElse ((targetContent.map (·.title)).getD "") "Unknown"
    fromUrl := item.url
    toUrl := jsOrElse ((targetContent.map (·.url)).getD "") ""
    strength := c.strength
    reason := c.reason
    type := c.type
    relationship := c.relationship
    timestamp := now
    platforms := item.title ++ " → " ++
      jsOrElse ((targetContent.map (·.title)).getD "") "Unknown"
    pinned := false }

/-- The `CONTENT_UPDATE` branch: analyze, insert into the content store,
take the 12 most recent other items, find connections, append one
`Connection` per accepted candidate, and respond with the total and
high-quality (strength ≥ 0.75) counts. `oracle` and `candidates` stand
for the opaque model session's outputs. -/
def handleContentUpdate (st : AIState) (msg : ContentMsg) (senderTabId now : Int)
    (oracle : Analysis) (candidates : List Candidate) : AIState × ContentResponse :=
  let item := mkContentItem msg senderTabId now
    (analyzeContent st.isInitialized oracle msg.content)
  let store := jsMapSet st.contentStore item.id item
  let existingContents :=
    (((store.map Prod.snd).filter (fun c => c.id ≠ item.id)).mergeSort
      (fun a b => decide (b.timestamp ≤ a.timestamp))).take 12
  let conns := findConnections st.isInitialized existingContents candidates
  ({ st with
      contentStore := store
      connections := st.connections ++ conns.map (fun c => mkConnection item store c now) },
   { success := true
     connections := conns.length
     highQuality := (conns.filter (fun c => decide (mkRat 3 4 ≤ c.strength))).length })  -- 0.75

/-- The `CLEAR_DATA` branch: clear the content store and connection
list; the pinned ledger (and everything else) is untouched; always
responds `{success: true}`. -/
def handleClearData (st : AIState) : AIState × SimpleResponse :=
  ({ st with contentStore := [], connections := [] }, { success := true })

/-- Mutation of the first connection the `find` call returns (the JS
handlers mutate the found array element in place). -/
def updateFirstConn (connectionId : String) (f : Connection → Connection) :
    List Connection → List Connection
  | [] => []
  | c :: rest =>
    if generateConnectionId c = connectionId then f c :: rest
    else c :: updateFirstConn connectionId f rest

/-- First `PIN_CONNECTION` branch: `weavesAI.pinConnection` looks the id
up in the daily list and delegates to the storage manager (capacity
checked); responds with that boolean, `false` when the id is unknown. -/
def pinBranch1 (st : AIState) (connectionId : String) (now : Int) (today : String) :
    AIState × SimpleResponse :=
  match st.connections.find? (fun c => generateConnectionId c = connectionId) with
  | none => (st, { success := false })
  | some connection =>
    let r := pinConnection st.settings st.pinned connectionId connection now today
    ({ st with pinned := r.2 }, { success := r.1 })

/-- Second `PIN_CONNECTION` branch: marks the found connection's
advisory `pinned` flag, pins it in the ledger, and responds
`{success: true}` when found, `{success: false}` when not. -/
def pinBranch2 (st : AIState) (connectionId : String) (now : Int) (today : String) :
    AIState × SimpleResponse :=
  match st.connections.find? (fun c => generateConnectionId c = connectionId) with
  | none => (st, { success := false })
  | some connection =>
    let connection' := { connection with pinned := true }
    let st1 := { st with
      connections := updateFirstConn connectionId (fun c => { c with pinned := true })
        st.connections }
    let r := pinConnection st1.settings st1.pinned connectionId connection' now today
    ({ st1 with pinned := r.2 }, { success := true })

/-- First `UNPIN_CONNECTION` branch: delegate to the storage manager's
`Map.delete`; responds with whether an entry was removed. -/
def unpinBranch1 (st : AIState) (connectionId : String) : AIState × SimpleResponse :=
  let r := unpinConnection st.pinned connectionId
  ({ st with pinned := r.2 }, { success := r.1 })

/-- Second `UNPIN_CONNECTION` branch: clears the advisory flag if the id
is found in the daily list, deletes from the ledger, and always responds
`{success: true}`. -/
def unpinBranch2 (st : AIState) (connectionId : String) : AIState × SimpleResponse :=
  let st1 := { st with
    connections := updateFirstConn connectionId (fun c => { c with pinned := false })
      st.connections }
  let r := unpinConnection st1.pinned connectionId
  ({ st1 with pinned := r.2 }, { success := true })

/-- First `DELETE_CONNECTION` branch: filter the daily list, delete from
the ledger, and respond `{success: true}` unconditionally. -/
def deleteBranch1 (st : AIState) (connectionId : String) : AIState × SimpleResponse :=
  ({ st with
      connections := st.connections.filter
        (fun c => generateConnectionId c ≠ connectionId)
      pinned := (unpinConnection st.pinned connectionId).2 },
   { success := true })

/-- Second `DELETE_CONNECTION` branch: same removals, but responds
`{success: wasDeleted}` where `wasDeleted` compares the list lengths. -/
def deleteBranch2 (st : AIState) (connectionId : String) : AIState × SimpleResponse :=
  let initialLength := st.connections.length
  let newConnections := st.connections.filter
    (fun c => generateConnectionId c ≠ connectionId)
  ({ st with
      connections := newConnections
      pinned := (unpinConnection st.pinned connectionId).2 },
   { success := decide (newConnections.length < initialLength) })

/-- The listener runs every matching `if` branch in order and
`sendResponse` only takes effect the first time it is called, so the
observable response of a `PIN_CONNECTION` message is the first branch's
while both branches' state effects apply. -/
def handlePinMessage (st : AIState) (connectionId : String) (now : Int)
    (today : String) : AIState × SimpleResponse :=
  let r1 := pinBranch1 st connectionId now today
  let r2 := pinBranch2 r1.1 connectionId now today
  (r2.1, r1.2)

/-- `UNPIN_CONNECTION` message: both branches run, first response
wins. -/
def handleUnpinMessage (st : AIState) (connectionId : String) :
    AIState × SimpleResponse :=
  let r1 := unpinBranch1 st connectionId
  let r2 := unpinBranch2 r1.1 connectionId
  (r2.1, r1.2)

/-- `DELETE_CONNECTION` message: both branches run, first response
wins. -/
def handleDeleteMessage (st : AIState) (connectionId : String) :
    AIState × SimpleResponse :=
  let r1 := deleteBranch1 st connectionId
  let r2 := deleteBranch2 r1.1 connectionId
  (r2.1, r1.2)

/-! ## Content script (`WeavesContentExtractor`) -/

/-- `contentSimilarity`: token-set Jaccard similarity over lower-cased
whitespace-split tokens, `0` when either string is empty (falsy). Every
use only inspects set cardinalities, so the order `List.dedup` keeps
elements in is immaterial. -/
def contentSimilarity (str1 str2 : String) : ℚ :=
  if str1 = "" || str2 = "" then 0
  else
    let set1 := (jsSplitWs (jsToLower str1)).dedup
    let set2 := (jsSplitWs (jsToLower str2)).dedup
    let intersection := set1.filter (fun x => set2.contains x)
    let union := (set1 ++ set2).dedup
    mkRat intersection.length union.length

/-- `extractAndSend`, reduced to its send decision: skip when the
extracted content is shorter than 100 characters, or when its similarity
with the last-sent content is not below `0.8`; otherwise send the
`CONTENT_UPDATE` message. -/
def extractAndSend (extracted : ContentMsg) (lastContent : String) :
    Option ContentMsg :=
  if extracted.content.length < 100 then none
  else if contentSimilarity extracted.content lastContent < mkRat 4 5 then some extracted  -- 0.8
  else none

/-- One end-to-end extraction: when `extractAndSend` sends nothing, the
background state is untouched; when it sends, the `CONTENT_UPDATE`
handler runs. -/
def processExtraction (st : AIState) (extracted : ContentMsg) (lastContent : String)
    (senderTabId now : Int) (oracle : Analysis) (candidates : List Candidate) :
    AIState :=
  match extractAndSend extracted lastContent with
  | none => st
  | some m => (handleContentUpdate st m senderTabId now oracle candidates).1

/-! ## Properties of the view comparator -/

/-- `connCmpLe` is the lexicographic order: pinned strictly first, then
strength descending, then timestamp descending. -/
theorem connCmpLe_iff (a b : ViewConn) :
    connCmpLe a b = true ↔
      (a.pinned = true ∧ b.pinned = false) ∨
      (a.pinned = b.pinned ∧ (b.conn.strength < a.conn.strength ∨
        (a.conn.strength = b.conn.strength ∧ b.conn.timestamp ≤ a.conn.timestamp))) := by
  have hstep : ∀ s t : ℚ, s ≠ t → (t ≤ s ↔ t < s) :=
    fun s t h => ⟨fun hle => lt_of_le_of_ne hle (fun e => h e.symm), le_of_lt⟩
  unfold connCmpLe
  cases hap : a.pinned <;> cases hbp : b.pinned <;>
    by_cases hs : a.conn.strength = b.conn.strength
  · simp [hs, lt_irrefl]
  · simp [bne_iff_ne, hs, hstep _ _ hs]
  · simp [hs]
  · simp [bne_iff_ne, hs]
  · simp [hs]
  · simp [bne_iff_ne, hs]
  · simp [hs, lt_irrefl]
  · simp [bne_iff_ne, hs, hstep _ _ hs]

/-- Totality of the comparator. -/
theorem connCmpLe_total (a b : ViewConn) : (connCmpLe a b || connCmpLe b a) = true := by
  rcases le_or_lt a.conn.strength b.conn.strength with hsle | hslt
  · rcases lt_or_eq_of_le hsle with hslt | hseq
    · cases hap : a.pinned <;> cases hbp : b.pinned <;>
        simp [connCmpLe_iff, hap, hbp, hslt]
    · rcases le_total a.conn.timestamp b.conn.timestamp with ht | ht <;>
        cases hap : a.pinned <;> cases hbp : b.pinned <;>
          simp [connCmpLe_iff, hap, hbp, hseq, ht]
  · cases hap : a.pinned <;> cases hbp : b.pinned <;>
      simp [connCmpLe_iff, hap, hbp, hslt]

/-- Transitivity of the comparator. -/
theorem connCmpLe_trans (a b c : ViewConn) (hab : connCmpLe a b) (hbc : connCmpLe b c) :
    connCmpLe a c = true := by
  rw [connCmpLe_iff] at *
  rcases hab with ⟨ha, hb⟩ | ⟨hab, h1⟩
  · rcases hbc with ⟨hb2, _⟩ | ⟨hbc, hc⟩
    · rw [hb] at hb2; exact absurd hb2 (by simp)
    · exact Or.inl ⟨ha, hbc ▸ hb⟩
  · rcases hbc with ⟨hb2, hc⟩ | ⟨hbc, h2⟩
    · exact Or.inl ⟨hab.trans hb2, hc⟩
    · refine Or.inr ⟨hab.trans hbc, ?_⟩
      rcases h1 with h1 | ⟨h1s, h1t⟩
      · rcases h2 with h2 | ⟨h2s, h2t⟩
        · exact Or.inl (h2.trans h1)
        · exact Or.inl (h2s ▸ h1)
      · rcases h2 with h2 | ⟨h2s, h2t⟩
        · exact Or.inl (h1s ▸ h2)
        · exact Or.inr ⟨h1s.trans h2s, h2t.trans h1t⟩

/-! ## Claim C1 -/

/-- C1: for every daily connection list and pinned ledger, the merged
all-connections view (a) contains every pinned connection the ledger
holds (as its recomputed-id view), (b) consists, up to the sorting
permutation, of the pinned views followed by exactly those regular views
whose composite id no pinned view carries, (c) is sorted by the
comparator pinned-before-unpinned, then strength descending, then
timestamp descending, and (d) is truncated to 50 entries by the
`GET_CONNECTIONS` handler. -/
theorem getAllConnections_spec (pinnedConnections : List (String × PinnedConnection))
    (connections : List Connection) :
    (∀ p ∈ getPinnedConnections pinnedConnections,
        p ∈ getAllConnections pinnedConnections connections) ∧
    List.Perm (getAllConnections pinnedConnections connections)
      (getPinnedConnections pinnedConnections ++
        (connections.map (fun c =>
            { conn := c, id := generateConnectionId c, pinned := false : ViewConn })).filter
          (fun r => !((getPinnedConnections pinnedConnections).any (fun p => p.id = r.id)))) ∧
    (getAllConnections pinnedConnections connections).Pairwise
      (fun a b => connCmpLe a b = true) ∧
    ∀ st : AIState,
      (handleGetConnections st).2 = (getAllConnections st.pinned st.connections).take 50 := by
  have hperm : List.Perm (getAllConnections pinnedConnections connections)
      (getPinnedConnections pinnedConnections ++
        (connections.map (fun c =>
            { conn := c, id := generateConnectionId c, pinned := false : ViewConn })).filter
          (fun r => !((getPinnedConnections pinnedConnections).any (fun p => p.id = r.id)))) :=
    List.mergeSort_perm _ _
  refine ⟨?_, hperm, ?_, fun st => rfl⟩
  · intro p hp
    exact hperm.mem_iff.2 (List.mem_append_left _ hp)
  · exact List.sorted_mergeSort connCmpLe_trans connCmpLe_total _

/-! ## Concrete fixtures for witnesses and counterexamples -/

/-- A sample connection record. -/
def sampleConn (f t : String) (ts : Int) (s : ℚ) : Connection :=
  { fromId := f, toId := t, fromTitle := "A", toTitle := "B", fromUrl := "u"
    toUrl := "v", strength := s, reason := "r", type := "academic-insight"
    relationship := "provides-framework", timestamp := ts, platforms := "A → B"
    pinned := false }

/-- A sample pinned-ledger value. -/
def samplePinned (c : Connection) (pinTime : Int) : PinnedConnection :=
  { conn := { c with pinned := true }, pinnedAt := pinTime, pinnedDate := "d" }

/-- A one-entry ledger used by the C1 witness. -/
def c1Ledger : List (String × PinnedConnection) :=
  [("p1-p2-1", samplePinned (sampleConn "p1" "p2" 1 (mkRat 1 2)) 10)]

/-- A daily list used by the C1 witness: one fresh connection and a copy
of the pinned one. -/
def c1Conns : List Connection :=
  [sampleConn "a" "b" 5 (mkRat 9 10), sampleConn "p1" "p2" 1 (mkRat 1 2)]

/-- The ledger entry of `c1Ledger` as a merged-view element. -/
def c1PinnedView : ViewConn :=
  { conn := (samplePinned (sampleConn "p1" "p2" 1 (mkRat 1 2)) 10).conn
    id := generateConnectionId (samplePinned (sampleConn "p1" "p2" 1 (mkRat 1 2)) 10).conn
    pinned := true }

/-- C1 witness: on the concrete ledger and daily list, the pinned view
is a member of the merged view, and the merged view is sorted by the
comparator. -/
theorem getAllConnections_spec_witness :
    c1PinnedView ∈ getAllConnections c1Ledger c1Conns ∧
    (getAllConnections c1Ledger c1Conns).Pairwise
      (fun a b => connCmpLe a b = true) :=
  ⟨(getAllConnections_spec c1Ledger c1Conns).1 c1PinnedView
     (by simp [getPinnedConnections, c1Ledger, c1PinnedView]),
   (getAllConnections_spec c1Ledger c1Conns).2.2.1⟩

/-! ## Claim C2 -/

/-- C2: a pin call made while the pinned ledger already holds at least
`maxPinnedConnections` entries fails (the capacity error is caught and
surfaces as `false`) and leaves the ledger unchanged. -/
theorem pinConnection_capacity (settings : Settings)
    (pinnedConnections : List (String × PinnedConnection))
    (connectionId : String) (connection : Connection) (now : Int) (today : String)
    (h : settings.maxPinnedConnections ≤ pinnedConnections.length) :
    pinConnection settings pinnedConnections connectionId connection now today
      = (false, pinnedConnections) := by
  unfold pinConnection
  simp [h]

/-- A full 50-entry ledger. -/
def c2Ledger : List (String × PinnedConnection) :=
  (List.range 50).map (fun i =>
    (toString i ++ "-y-0", samplePinned (sampleConn (toString i) "y" 0 (mkRat 3 4)) (Int.ofNat i)))

/-- C2 witness: with the default maximum of 50 and a 50-entry ledger,
the 51st pin attempt fails and the ledger keeps its 50 entries. -/
theorem pinConnection_capacity_witness :
    DEFAULT_SETTINGS.maxPinnedConnections ≤ c2Ledger.length ∧
    pinConnection DEFAULT_SETTINGS c2Ledger "x-y-0" (sampleConn "x" "y" 0 (mkRat 3 4)) 100 "d"
      = (false, c2Ledger) ∧
    c2Ledger.length = 50 :=
  ⟨by simp [c2Ledger, DEFAULT_SETTINGS],
   pinConnection_capacity DEFAULT_SETTINGS c2Ledger "x-y-0"
     (sampleConn "x" "y" 0 (mkRat 3 4)) 100 "d" (by simp [c2Ledger, DEFAULT_SETTINGS]),
   by simp [c2Ledger]⟩

/-! ## Claim C3 -/

/-- C3: the daily-reset check is idempotent within one day: when the
stored last-reset date already equals `d`, the check is a no-op on the
whole storage state, and running the check twice for the same date
equals running it once. -/
theorem checkDailyReset_idempotent (d : String) (st : StorageState) :
    (st.lastResetDate = some d → checkAndPerformDailyReset d st = st) ∧
    checkAndPerformDailyReset d (checkAndPerformDailyReset d st)
      = checkAndPerformDailyReset d st := by
  constructor
  · intro h
    unfold checkAndPerformDailyReset
    simp [h]
  · unfold checkAndPerformDailyReset performDailyReset
    by_cases he : st.settings.autoResetEnabled
    · by_cases hl : st.lastResetDate = some d
      · simp [he, hl]
      · simp [he, hl]
    · simp [he]

/-- Storage state on a day whose reset has already happened. -/
def c3State : StorageState :=
  { dailyData := some
      { contentStore := [], connections := [sampleConn "a" "b" 5 (mkRat 9 10)], timestamp := 99 }
    lastResetDate := some "Mon Jan 01 2024"
    pinned := [("p1-p2-1", samplePinned (sampleConn "p1" "p2" 1 (mkRat 1 2)) 10)]
    settings := DEFAULT_SETTINGS }

/-- C3 witness: a second reset check for the date already stored leaves
the concrete state (daily data included) untouched. -/
theorem checkDailyReset_idempotent_witness :
    checkAndPerformDailyReset "Mon Jan 01 2024" c3State = c3State :=
  (checkDailyReset_idempotent "Mon Jan 01 2024" c3State).1 rfl

/-! ## Claim C4 -/

/-- A pin stamped at epoch 0, far older than any retention cutoff. -/
def c4StalePin : PinnedConnection := samplePinned (sampleConn "s" "t" 0 (mkRat 4 5)) 0

/-- C4 counterexample: the cleanup the daily reset actually runs
(`cleanupPinnedConnections` in `background.js`) keeps an entry whose
`pinnedAt` predates `now - retentionDays`, because it performs no
retention-based removal at all — it only evicts when the ledger exceeds
capacity. -/
theorem cleanup_no_retention_eviction :
    cleanupPinnedConnections DEFAULT_SETTINGS.maxPinnedConnections
        [("s-t-0", c4StalePin)] = [("s-t-0", c4StalePin)] ∧
    c4StalePin.pinnedAt <
      1700000000000 - (DEFAULT_SETTINGS.dataRetentionDays : Int) * 86400000 := by
  constructor
  · rfl
  · decide

/-- Entries with pairwise-distinct keys are determined by their key. -/
theorem key_nodup_entry_eq {β : Type} {l : List (String × β)}
    (h : l.Pairwise (fun a b => a.1 ≠ b.1)) {x y : String × β}
    (hx : x ∈ l) (hy : y ∈ l) (hk : x.1 = y.1) : x = y := by
  induction l with
  | nil => cases hx
  | cons a t ih =>
    rcases List.pairwise_cons.1 h with ⟨ha, ht⟩
    rcases List.mem_cons.1 hx with hx1 | hx1 <;> rcases List.mem_cons.1 hy with hy1 | hy1
    · rw [hx1, hy1]
    · exact absurd (hx1 ▸ hk) (ha y hy1)
    · exact absurd (hy1 ▸ hk.symm) (ha x hx1)
    · exact ih ht hx1 hy1

/-- Pairwise-distinct keys give a duplicate-free entry list. -/
theorem key_nodup_nodup {β : Type} {l : List (String × β)}
    (h : l.Pairwise (fun a b => a.1 ≠ b.1)) : l.Nodup :=
  h.imp (fun hne e => hne (congrArg Prod.fst e))

/-- Transitivity of the `pinnedAt` comparator used by the capacity
eviction. -/
theorem pinnedAtLe_trans (a b c : String × PinnedConnection)
    (hab : decide (a.2.pinnedAt ≤ b.2.pinnedAt) = true)
    (hbc : decide (b.2.pinnedAt ≤ c.2.pinnedAt) = true) :
    decide (a.2.pinnedAt ≤ c.2.pinnedAt) = true := by
  simp only [decide_eq_true_eq] at *
  omega

/-- Totality of the `pinnedAt` comparator. -/
theorem pinnedAtLe_total (a b : String × PinnedConnection) :
    (decide (a.2.pinnedAt ≤ b.2.pinnedAt) || decide (b.2.pinnedAt ≤ a.2.pinnedAt)) = true := by
  simpa using Int.le_total a.2.pinnedAt b.2.pinnedAt

/-- C4 amended: the two cleanup routines each implement only half of
the claimed contract. The `storage-manager.js` cleanup keeps exactly the
entries whose `pinnedAt` does not predate `now - retentionDays` and does
no capacity eviction; the `background.js` cleanup (the one the daily
reset triggers) does no retention removal: it is the identity at or
under capacity, and over capacity it removes only existing entries,
trims the ledger to exactly the maximum, and evicts oldest-`pinnedAt`
entries first (every evicted entry is no newer than every survivor). -/
theorem cleanup_amended_spec (maxPinned retentionDays : Nat) (now : Int)
    (pinned : List (String × PinnedConnection))
    (hkeys : pinned.Pairwise (fun a b => a.1 ≠ b.1)) :
    (∀ e, e ∈ SMgr.cleanupPinnedConnections retentionDays now pinned ↔
        e ∈ pinned ∧ ¬(e.2.pinnedAt < now - (retentionDays : Int) * 86400000)) ∧
    (pinned.length ≤ maxPinned → cleanupPinnedConnections maxPinned pinned = pinned) ∧
    (cleanupPinnedConnections maxPinned pinned).length = min pinned.length maxPinned ∧
    (∀ e ∈ cleanupPinnedConnections maxPinned pinned, e ∈ pinned) ∧
    (∀ e ∈ pinned, e ∉ cleanupPinnedConnections maxPinned pinned →
      ∀ k ∈ cleanupPinnedConnections maxPinned pinned,
        e.2.pinnedAt ≤ k.2.pinnedAt) := by
  have hsm : ∀ e, e ∈ SMgr.cleanupPinnedConnections retentionDays now pinned ↔
      e ∈ pinned ∧ ¬(e.2.pinnedAt < now - (retentionDays : Int) * 86400000) := by
    intro e
    unfold SMgr.cleanupPinnedConnections
    simp
  by_cases hover : maxPinned < pinned.length
  case neg =>
    have hid : cleanupPinnedConnections maxPinned pinned = pinned := by
      unfold cleanupPinnedConnections
      simp [hover]
    refine ⟨hsm, fun _ => hid, ?_, ?_, ?_⟩
    · rw [hid, Nat.min_eq_left (Nat.le_of_not_lt hover)]
    · intro e he
      rwa [hid] at he
    · intro e he hne
      rw [hid] at hne
      exact absurd he hne
  case pos =>
    set le := fun a b : String × PinnedConnection =>
      decide (a.2.pinnedAt ≤ b.2.pinnedAt) with hle
    set sortedPins := pinned.mergeSort le with hsorted
    set toRemove := sortedPins.take (sortedPins.length - maxPinned) with htr
    have hres : cleanupPinnedConnections maxPinned pinned =
        pinned.filter (fun e => !(toRemove.any (fun r => r.1 = e.1))) := by
      unfold cleanupPinnedConnections
      simp [hover, hsorted, htr, hle]
    have hperm : List.Perm sortedPins pinned := List.mergeSort_perm _ _
    have hkeysSorted : sortedPins.Pairwise (fun a b => a.1 ≠ b.1) :=
      (hperm.pairwise_iff (fun h e => h e.symm)).2 hkeys
    have hnodupSorted : sortedPins.Nodup := key_nodup_nodup hkeysSorted
    have hpairwise : sortedPins.Pairwise (fun a b => le a b = true) :=
      List.sorted_mergeSort pinnedAtLe_trans pinnedAtLe_total pinned
    have hsplit : toRemove ++ sortedPins.drop (sortedPins.length - maxPinned) = sortedPins :=
      List.take_append_drop _ _
    have hbridge : ∀ e ∈ pinned,
        ((toRemove.any (fun r => r.1 = e.1)) = true ↔ e ∈ toRemove) := by
      intro e he
      constructor
      · intro h
        rcases List.any_eq_true.1 h with ⟨r, hr, hrk⟩
        have hrs : r ∈ sortedPins := List.take_subset _ _ hr
        have hes : e ∈ sortedPins := hperm.mem_iff.2 he
        have hre : r = e :=
          key_nodup_entry_eq hkeysSorted hrs hes (by simpa using hrk)
        exact hre ▸ hr
      · intro h
        exact List.any_eq_true.2 ⟨e, h, by simp⟩
    have hdisj : ∀ x ∈ sortedPins.drop (sortedPins.length - maxPinned), x ∉ toRemove := by
      intro x hx hx2
      have hnd : sortedPins.Nodup := hnodupSorted
      rw [← hsplit] at hnd
      exact (List.nodup_append.1 hnd).2.2 hx2 hx
    have hkeep : sortedPins.filter (fun e => !(toRemove.any (fun r => r.1 = e.1)))
        = sortedPins.drop (sortedPins.length - maxPinned) := by
      conv_lhs => rw [← hsplit]
      rw [List.filter_append]
      have h1 : toRemove.filter (fun e => !(toRemove.any (fun r => r.1 = e.1))) = [] := by
        rw [List.filter_eq_nil_iff]
        intro a ha
        have hany : (toRemove.any (fun r => r.1 = a.1)) = true :=
          List.any_eq_true.2 ⟨a, ha, by simp⟩
        simp [hany]
      have h2 : (sortedPins.drop (sortedPins.length - maxPinned)).filter
          (fun e => !(toRemove.any (fun r => r.1 = e.1))) =
          sortedPins.drop (sortedPins.length - maxPinned) := by
        rw [List.filter_eq_self]
        intro a ha
        have hamem : a ∈ pinned := hperm.mem_iff.1 (List.drop_subset _ _ ha)
        have hany : (toRemove.any (fun r => r.1 = a.1)) = false := by
          by_cases hmem : (toRemove.any (fun r => r.1 = a.1)) = true
          · exact absurd ((hbridge a hamem).1 hmem) (hdisj a ha)
          · exact Bool.eq_false_iff.2 hmem
        simp [hany]
      rw [h1, h2, List.nil_append]
    have hfilterPerm : List.Perm
        (pinned.filter (fun e => !(toRemove.any (fun r => r.1 = e.1))))
        (sortedPins.drop (sortedPins.length - maxPinned)) := by
      rw [← hkeep]
      exact (hperm.filter _).symm
    refine ⟨hsm, fun hc => absurd hover (Nat.not_lt.2 hc), ?_, ?_, ?_⟩
    · rw [hres, hfilterPerm.length_eq, List.length_drop, List.length_mergeSort,
        Nat.min_eq_right (Nat.le_of_lt hover)]
      omega
    · intro e he
      rw [hres] at he
      exact (List.mem_filter.1 he).1
    · intro e he hne k hk
      rw [hres] at hne hk
      have hin : e ∈ toRemove := by
        by_cases hany : (toRemove.any (fun r => r.1 = e.1)) = true
        · exact (hbridge e he).1 hany
        · have hanyf : (toRemove.any (fun r => r.1 = e.1)) = false :=
            Bool.eq_false_iff.2 hany
          exact absurd (List.mem_filter.2 ⟨he, by simp [hanyf]⟩) hne
      have hkmem : k ∈ pinned := (List.mem_filter.1 hk).1
      have hknot : k ∉ toRemove := by
        intro hkin
        have hka := (hbridge k hkmem).2 hkin
        have hkp := (List.mem_filter.1 hk).2
        rw [hka] at hkp
        simp at hkp
      have hkdrop : k ∈ sortedPins.drop (sortedPins.length - maxPinned) := by
        have hks : k ∈ sortedPins := hperm.mem_iff.2 hkmem
        rw [← hsplit] at hks
        rcases List.mem_append.1 hks with h | h
        · exact absurd h hknot
        · exact h
      have hp2 : sortedPins.Pairwise (fun a b => le a b = true) := hpairwise
      rw [← hsplit] at hp2
      have hfin := (List.pairwise_append.1 hp2).2.2 e hin k hkdrop
      simpa [hle] using hfin

/-- A three-entry ledger with distinct keys (middle entry oldest). -/
def c4Ledger : List (String × PinnedConnection) :=
  [("a-b-1", samplePinned (sampleConn "a" "b" 1 (mkRat 3 4)) 30),
   ("c-d-2", samplePinned (sampleConn "c" "d" 2 (mkRat 3 4)) 10),
   ("e-f-3", samplePinned (sampleConn "e" "f" 3 (mkRat 3 4)) 20)]

/-- C4 witness: on a concrete over-capacity ledger (three entries, max
one) the background cleanup keeps exactly `max` entries, all of them
from the original ledger. -/
theorem cleanup_amended_spec_witness :
    (cleanupPinnedConnections 1 c4Ledger).length = min c4Ledger.length 1 ∧
    (∀ e ∈ cleanupPinnedConnections 1 c4Ledger, e ∈ c4Ledger) :=
  ⟨(cleanup_amended_spec 1 7 1700000000000 c4Ledger (by decide)).2.2.1,
   (cleanup_amended_spec 1 7 1700000000000 c4Ledger (by decide)).2.2.2.1⟩

/-! ## Claim C5 -/

/-- A minimal content item for connection-finding fixtures. -/
def mkItemSimple (idv : String) (ts : Int) : ContentItem :=
  { id := idv, tabId := 7, url := "u", title := "T", content := "c"
    domain := "d", platform := "p", contentType := "article", timestamp := ts
    analysis := fallbackUninitAnalysis "c" }

/-- Three recent items to compare against. -/
def c5Items : List ContentItem :=
  [mkItemSimple "7-1" 1, mkItemSimple "7-2" 2, mkItemSimple "7-3" 3]

/-- A reason passing every validation check: longer than 50 characters
and free of the three banned phrases. -/
def c5Reason : String :=
  "The statistical framework of the first source resolves the sampling limitation of the second source."

/-- Three candidate lines that all pass validation. -/
def c5Cands : List Candidate :=
  [{ index := 0, strength := mkRat 4 5, reason := c5Reason },
   { index := 1, strength := mkRat 4 5, reason := c5Reason },
   { index := 2, strength := mkRat 9 10, reason := c5Reason }]

/-- C5 counterexample: when the analysis capability returns three valid
candidate lines, `findConnections` accepts all three — the "maximum 2
accepted candidates" is only requested in the prompt text and is not
enforced by the parsing code. -/
theorem findConnections_no_cap_counterexample :
    (findConnections true c5Items c5Cands).length = 3 ∧
    (∀ c ∈ c5Cands, validCandidate (c5Items.take 4) c = true) := by
  constructor
  · decide
  · decide

/-- The parsing loop accepts exactly the valid candidates, in order. -/
theorem parseCandidates_eq (existingAnalyses : List ContentItem)
    (cands : List Candidate) :
    parseCandidates existingAnalyses cands =
      (cands.filter (validCandidate existingAnalyses)).map
        (fun c =>
          { contentId := ((existingAnalyses.get? c.index.toNat).map (·.id)).getD ""
            strength := c.strength
            reason := c.reason
            type := "academic-insight"
            relationship := "provides-framework" : AcceptedConn }) := by
  induction cands with
  | nil => rfl
  | cons c rest ih =>
    unfold parseCandidates
    by_cases h : validCandidate existingAnalyses c = true
    · simp [h, ih]
    · simp [h, ih, List.filter_cons]

/-- C5 amended: a single ingestion accepts every candidate line that
passes validation, with no cap: the accepted list is exactly the valid
candidates (mapped to connection records) and its length is the count of
valid candidate lines, however many there are. -/
theorem findConnections_accepts_all_valid
    (existingContents : List ContentItem) (candidates : List Candidate) :
    findConnections true existingContents candidates =
      (candidates.filter (validCandidate (existingContents.take 4))).map
        (fun c =>
          { contentId := (((existingContents.take 4).get? c.index.toNat).map (·.id)).getD ""
            strength := c.strength
            reason := c.reason
            type := "academic-insight"
            relationship := "provides-framework" : AcceptedConn }) ∧
    (findConnections true existingContents candidates).length =
      candidates.countP (validCandidate (existingContents.take 4)) := by
  have h : findConnections true existingContents candidates =
      parseCandidates (existingContents.take 4) candidates := by
    unfold findConnections
    simp
  constructor
  · rw [h, parseCandidates_eq]
  · rw [h, parseCandidates_eq, List.length_map, List.countP_eq_length_filter]

/-! ## Claim C6 -/

/-- A single compared item giving the example candidate a valid index. -/
def c6Item : ContentItem := mkItemSimple "9-1" 1

/-- C6: a candidate is accepted only when its index is in range, its
strength lies in `[0.7, 1.0]`, its reason is longer than 50 characters,
and the lower-cased reason contains none of the shallow-connection
phrases; any candidate violating one of these is rejected — in
particular the reason `"both discuss climate"` is rejected even at
strength 0.9. -/
theorem validCandidate_spec :
    (∀ (existingAnalyses : List ContentItem) (c : Candidate),
      validCandidate existingAnalyses c = true ↔
        (0 ≤ c.index ∧ c.index < (existingAnalyses.length : Int) ∧
         mkRat 7 10 ≤ c.strength ∧ c.strength ≤ mkRat 1 1 ∧
         50 < c.reason.length ∧
         jsIncludes (jsToLower c.reason) "both mention" = false ∧
         jsIncludes (jsToLower c.reason) "both discuss" = false ∧
         jsIncludes (jsToLower c.reason) "both are about" = false)) ∧
    validCandidate [c6Item]
      { index := 0, strength := mkRat 9 10, reason := "both discuss climate" } = false := by
  constructor
  · intro existingAnalyses c
    unfold validCandidate
    simp [Bool.and_eq_true, decide_eq_true_eq, Bool.not_eq_true', and_assoc]
  · decide

/-! ## Claim C7 -/

/-- C7: handling `CLEAR_DATA` empties the daily content store and the
daily connection list, responds `{success: true}`, and leaves the
pinned ledger (and the rest of the state) exactly as it was. -/
theorem clearData_spec (st : AIState) :
    (handleClearData st).2.success = true ∧
    (handleClearData st).1.contentStore = [] ∧
    (handleClearData st).1.connections = [] ∧
    (handleClearData st).1.pinned = st.pinned ∧
    (handleClearData st).1.isInitialized = st.isInitialized ∧
    (handleClearData st).1.settings = st.settings :=
  ⟨rfl, rfl, rfl, rfl, rfl, rfl⟩

/-! ## Claim C8 -/

/-- A state that knows one daily connection (`a-b-5`) and one pinned
connection (`p1-p2-1`), neither with id `missing-id`. -/
def c8State : AIState :=
  { isInitialized := true
    contentStore := []
    connections := [sampleConn "a" "b" 5 (mkRat 9 10)]
    pinned := [("p1-p2-1", samplePinned (sampleConn "p1" "p2" 1 (mkRat 1 2)) 10)]
    settings := DEFAULT_SETTINGS }

/-- C8 (code bug): on an id no connection carries, the pin and unpin
messages respond `{success: false}` as specified, but the delete
message's observable response is `{success: true}`: the first
`DELETE_CONNECTION` branch responds unconditionally and its response
wins over the later branch's `success: wasDeleted`. -/
theorem deleteUnknown_responds_success :
    (c8State.connections.all (fun c => generateConnectionId c ≠ "missing-id")) = true ∧
    (c8State.pinned.all (fun e => e.1 ≠ "missing-id")) = true ∧
    (handlePinMessage c8State "missing-id" 100 "d").2.success = false ∧
    (handleUnpinMessage c8State "missing-id").2.success = false ∧
    (handleDeleteMessage c8State "missing-id").2.success = true := by
  refine ⟨by decide, by decide, by decide, by decide, by decide⟩

/-! ## Claim C9 -/

/-- C9: whenever the token-set Jaccard similarity between the freshly
extracted content and the last-sent content is at least 0.8, the content
script sends no `CONTENT_UPDATE` message, so nothing is ingested and the
background state (content store included) is unchanged. -/
theorem duplicateContent_skip (extracted : ContentMsg) (lastContent : String)
    (h : mkRat 4 5 ≤ contentSimilarity extracted.content lastContent) :
    extractAndSend extracted lastContent = none ∧
    ∀ (st : AIState) (senderTabId now : Int) (oracle : Analysis)
      (candidates : List Candidate),
      processExtraction st extracted lastContent senderTabId now oracle candidates = st := by
  have hs : ¬(contentSimilarity extracted.content lastContent < mkRat 4 5) :=
    not_lt.2 h
  have he : extractAndSend extracted lastContent = none := by
    unfold extractAndSend
    by_cases hl : extracted.content.length < 100
    · simp [hl]
    · simp [hl, hs]
  refine ⟨he, fun st senderTabId now oracle candidates => ?_⟩
  unfold processExtraction
  rw [he]

/-- A re-extracted page text of more than 100 characters. -/
def c9Content : String :=
  "the quick brown fox jumps over the lazy dog while the patient observer records every single movement with care"

/-- C9 witness: re-extracting identical content (similarity 1 ≥ 0.8)
sends nothing. -/
theorem duplicateContent_skip_witness :
    mkRat 4 5 ≤ contentSimilarity c9Content c9Content ∧
    extractAndSend
      { title := "t", content := c9Content, url := "u", domain := "d"
        platform := "p", contentType := "article" } c9Content = none :=
  ⟨by decide,
   (duplicateContent_skip
     { title := "t", content := c9Content, url := "u", domain := "d"
       platform := "p", contentType := "article" } c9Content (by decide)).1⟩

/-! ## Claim C10 -/

/-- C10: with the analysis capability uninitialized, connection finding
returns the empty list, so a `CONTENT_UPDATE` appends no connection and
responds `{success: true, connections: 0, highQuality: 0}`, while the
item is still ingested into the content store with the fallback analysis
attached. -/
theorem contentUpdate_uninitialized (st : AIState) (msg : ContentMsg)
    (senderTabId now : Int) (oracle : Analysis) (candidates : List Candidate)
    (existingContents : List ContentItem)
    (h : st.isInitialized = false) :
    findConnections st.isInitialized existingContents candidates = [] ∧
    (handleContentUpdate st msg senderTabId now oracle candidates).2 =
      { success := true, connections := 0, highQuality := 0 } ∧
    (handleContentUpdate st msg senderTabId now oracle candidates).1.connections =
      st.connections ∧
    (handleContentUpdate st msg senderTabId now oracle candidates).1.contentStore =
      jsMapSet st.contentStore (toString senderTabId ++ "-" ++ toString now)
        (mkContentItem msg senderTabId now (fallbackUninitAnalysis msg.content)) := by
  have hf : ∀ (ex : List ContentItem) (cands2 : List Candidate),
      findConnections st.isInitialized ex cands2 = [] := by
    intro ex cands2
    unfold findConnections
    rw [h]
    simp
  refine ⟨hf existingContents candidates, ?_, ?_, ?_⟩
  · unfold handleContentUpdate
    simp [hf]
  · unfold handleContentUpdate
    simp [hf]
  · unfold handleContentUpdate
    simp [analyzeContent, h, mkContentItem]

/-- An uninitialized background state. -/
def c10State : AIState :=
  { isInitialized := false, contentStore := [], connections := [], pinned := []
    settings := DEFAULT_SETTINGS }

/-- The message of the C10 witness. -/
def c10Msg : ContentMsg :=
  { title := "t", content := "hello world content", url := "u", domain := "d"
    platform := "p", contentType := "article" }

/-- C10 witness: a concrete uninitialized ingestion responds with zero
connections (even though candidates were offered) and appends none. -/
theorem contentUpdate_uninitialized_witness :
    (handleContentUpdate c10State c10Msg 7 99 (fallbackUninitAnalysis "x") c5Cands).2 =
      { success := true, connections := 0, highQuality := 0 } ∧
    (handleContentUpdate c10State c10Msg 7 99 (fallbackUninitAnalysis "x") c5Cands).1.connections =
      c10State.connections :=
  ⟨(contentUpdate_uninitialized c10State c10Msg 7 99 (fallbackUninitAnalysis "x")
      c5Cands [] rfl).2.1,
   (contentUpdate_uninitialized c10State c10Msg 7 99 (fallbackUninitAnalysis "x")
      c5Cands [] rfl).2.2.1⟩
